import Mathlib

/-!
Shallow embedding of the profit/cost aggregation and reconciliation engine of
the `profit-for-shopify` repository, together with theorems settling the
specification claims about it.

Conventions of the embedding:
* JavaScript `number` values that stay finite on the code paths under study are
  embedded as rationals (`ℚ`); where the non-finite IEEE values (Infinity, NaN)
  are observable (the target-status projection), a dedicated `JSNum` type with
  explicit Infinity/NaN arithmetic is used instead.
* Timestamps (`Date`) are embedded as milliseconds since the Unix epoch (`ℤ`);
  the UTC calendar arithmetic of `Date` (`Date.UTC`, `setUTCDate`,
  `setUTCMonth`, `setUTCHours`) is implemented over a proleptic Gregorian
  civil-date correspondence.
* The Prisma row store is embedded as a list of records; `findFirst`, `create`,
  `update` and composite-key `upsert` become the corresponding list operations.
-/

namespace ProfitApp

/-! ## Profit calculator (`app/utils/profit-calculator.ts`) -/

/-- `SalesData` from the source (all fields JS numbers). -/
structure SalesData where
  totalSales : ℚ
  newCustomerRevenue : ℚ
  returnCustomerRevenue : ℚ
  orderCount : ℚ
  newCustomerCount : ℚ
  returnCustomerCount : ℚ
deriving DecidableEq, Repr

/-- `CostsData` from the source. -/
structure CostsData where
  shippingCosts : ℚ
  cogs : ℚ
  transactionFees : ℚ
  marketingCosts : ℚ
  fixedCosts : ℚ
deriving DecidableEq, Repr

/-- `ProfitMetrics` from the source. -/
structure ProfitMetrics where
  totalSales : ℚ
  newCustomerRevenue : ℚ
  returnCustomerRevenue : ℚ
  variableCosts : ℚ
  marketingCosts : ℚ
  fixedCosts : ℚ
  grossProfit : ℚ
  contributionProfit : ℚ
  netProfit : ℚ
  grossMargin : ℚ
  contributionMargin : ℚ
  netMargin : ℚ
deriving DecidableEq, Repr

/-- `calculateProfits` from the source: destructures `totalSales`,
`newCustomerRevenue`, `returnCustomerRevenue` from the sales input and
`shippingCosts`, `cogs`, `marketingCosts`, `fixedCosts` from the costs input,
recomputes transaction fees from the fee percentage, and guards every margin
by `totalSales > 0`. -/
def calculateProfits (sales : SalesData) (costs : CostsData)
    (transactionFeePercent : ℚ) : ProfitMetrics :=
  let totalSales := sales.totalSales
  let transactionFees := totalSales * transactionFeePercent / 100
  let variableCosts := costs.shippingCosts + costs.cogs + transactionFees
  let grossProfit := totalSales - variableCosts
  let contributionProfit := totalSales - variableCosts - costs.marketingCosts
  let netProfit := totalSales - variableCosts - costs.marketingCosts - costs.fixedCosts
  { totalSales := totalSales
    newCustomerRevenue := sales.newCustomerRevenue
    returnCustomerRevenue := sales.returnCustomerRevenue
    variableCosts := variableCosts
    marketingCosts := costs.marketingCosts
    fixedCosts := costs.fixedCosts
    grossProfit := grossProfit
    contributionProfit := contributionProfit
    netProfit := netProfit
    grossMargin := if totalSales > 0 then grossProfit / totalSales * 100 else 0
    contributionMargin := if totalSales > 0 then contributionProfit / totalSales * 100 else 0
    netMargin := if totalSales > 0 then netProfit / totalSales * 100 else 0 }

/-- `calculateTrend` from the source. -/
def calculateTrend (current previous : ℚ) : ℚ :=
  if previous = 0 then 0 else (current - previous) / previous * 100

end ProfitApp

namespace ProfitApp

/-- Claim C2 sales input of the spec's concrete example. -/
def exampleSales : SalesData :=
  { totalSales := 1000, newCustomerRevenue := 0, returnCustomerRevenue := 0
    orderCount := 0, newCustomerCount := 0, returnCustomerCount := 0 }

/-- Claim C2 costs input of the spec's concrete example. -/
def exampleCosts : CostsData :=
  { shippingCosts := 50, cogs := 200, transactionFees := 0
    marketingCosts := 100, fixedCosts := 50 }

/-! ## Cost ledger (`MarketingCost` rows and the three sync store paths) -/

/-- A `MarketingCost` row (`prisma/schema`): `date` is a millisecond
timestamp. -/
structure MarketingCost where
  shop : String
  platform : String
  amount : ℚ
  date : ℤ
  description : String
deriving DecidableEq, Repr

/-- The composite key `shop_platform_date` used by the Prisma
`marketingCost.upsert` call in `syncGoogleHistoricalData`. -/
def keyMatch (shop platform : String) (date : ℤ) (r : MarketingCost) : Bool :=
  r.shop == shop && r.platform == platform && r.date == date

/-- The `update` payload of the `upsert`: rows with the key get the new
amount and description, all others are untouched. -/
def applyAmount (shop platform : String) (date : ℤ) (amount : ℚ) (desc : String)
    (r : MarketingCost) : MarketingCost :=
  if keyMatch shop platform date r then
    { r with amount := amount, description := desc }
  else r

/-- `prisma.marketingCost.upsert` keyed by `shop_platform_date` as called in
`syncGoogleHistoricalData`: update the row with the key if present, otherwise
create it. -/
def upsertMarketingCost (l : List MarketingCost) (shop platform : String)
    (date : ℤ) (amount : ℚ) (desc : String) : List MarketingCost :=
  if l.any (keyMatch shop platform date) then
    l.map (applyAmount shop platform date amount desc)
  else
    l ++ [⟨shop, platform, amount, date, desc⟩]

/-- `findFirst`-then-`update` semantics: replace the first row satisfying the
predicate. -/
def updateFirst (p : MarketingCost → Bool) (f : MarketingCost → MarketingCost) :
    List MarketingCost → List MarketingCost
  | [] => []
  | r :: rs => if p r then f r :: rs else r :: updateFirst p f rs

/-- The `findFirst` window used by `syncFacebookHistoricalData`: same shop,
platform `"facebook"`, `date` in `[dayStart, dayEnd)` (Prisma `gte`/`lt`). -/
def fbDayMatch (shop : String) (dayStart dayEnd : ℤ) (r : MarketingCost) : Bool :=
  r.shop == shop && r.platform == "facebook"
    && decide (dayStart ≤ r.date) && decide (r.date < dayEnd)

/-- The per-day store step of `syncFacebookHistoricalData`: `dayStart` is the
insight date at midnight (`setHours(0,0,0,0)`), `dayEnd` the same date at
23:59:59.999; an existing row in the window is updated in place (amount, date
renormalized to midnight, description), otherwise a new row is created.
`costDate` stands for the normalized midnight timestamp, from which both
window bounds are derived in the source. -/
def fbStoreDay (l : List MarketingCost) (shop : String) (costDate : ℤ)
    (spend : ℚ) (desc : String) : List MarketingCost :=
  let dayStart := costDate
  let dayEnd := costDate + 86399999
  if l.any (fbDayMatch shop dayStart dayEnd) then
    updateFirst (fbDayMatch shop dayStart dayEnd)
      (fun r => { r with amount := spend, date := costDate, description := desc }) l
  else
    l ++ [⟨shop, "facebook", spend, costDate, desc⟩]

/-- The store step of `syncFacebookAdCosts` (`app/utils/facebook-ads.ts`):
when the fetched range total is positive, unconditionally `create` a new row
dated at the range's end date. -/
def syncFacebookAdCostsStore (l : List MarketingCost) (shop : String)
    (endDate : ℤ) (totalSpend : ℚ) (desc : String) : List MarketingCost :=
  if 0 < totalSpend then
    l ++ [⟨shop, "facebook", totalSpend, endDate, desc⟩]
  else l

/-- A Facebook daily insight after parsing: `spend` is `parseFloat` of the
reported spend, `dateStart` the midnight timestamp of `date_start`. -/
structure FBInsight where
  spend : ℚ
  dateStart : ℤ
deriving DecidableEq, Repr

/-- One iteration of the `for (const insight of insights)` store loop of
`syncFacebookHistoricalData`: days with `spend > 0` are stored and added to
the running total, all other days are skipped. -/
def fbSyncStep (shop : String) (st : List MarketingCost × ℚ) (i : FBInsight) :
    List MarketingCost × ℚ :=
  if 0 < i.spend then
    (fbStoreDay st.1 shop i.dateStart i.spend
        ("Facebook Ads spend for " ++ toString i.dateStart),
      st.2 + i.spend)
  else st

/-- The whole store loop of `syncFacebookHistoricalData`, returning the final
ledger and the accumulated `totalAmount`. -/
def fbSyncDays (shop : String) (l : List MarketingCost) (ins : List FBInsight) :
    List MarketingCost × ℚ :=
  ins.foldl (fbSyncStep shop) (l, 0)

/-- One row of a Google Ads `searchStream` result: `hasDate` models the
presence of `result.segments?.date`, `costMicros` is
`result.metrics?.costMicros || 0`. -/
structure GoogleRow where
  hasDate : Bool
  date : ℤ
  costMicros : ℚ
deriving DecidableEq, Repr

/-- `dailySpend.set(date, (dailySpend.get(date) || 0) + cost)` over an
insertion-ordered association list. -/
def bumpSpend (m : List (ℤ × ℚ)) (d : ℤ) (c : ℚ) : List (ℤ × ℚ) :=
  if m.any (fun e => e.1 == d) then
    m.map fun e => if e.1 == d then (e.1, e.2 + c) else e
  else m ++ [(d, c)]

/-- One iteration of the aggregation loop of `syncGoogleHistoricalData`:
micros are converted to currency units (`costMicros / 1000000`) and only rows
with a date and `cost > 0` enter the `dailySpend` map. -/
def googleAggStep (m : List (ℤ × ℚ)) (row : GoogleRow) : List (ℤ × ℚ) :=
  let cost := row.costMicros / 1000000
  if row.hasDate && decide (0 < cost) then bumpSpend m row.date cost else m

/-- The `dailySpend` map built by `syncGoogleHistoricalData` from the raw
result rows. -/
def googleDailySpend (rows : List GoogleRow) : List (ℤ × ℚ) :=
  rows.foldl googleAggStep []

/-- One iteration of the store loop of `syncGoogleHistoricalData`: the entry
is upserted under `(shop, "google", date)` and added to `totalAmount`. -/
def googleStoreStep (shop : String) (st : List MarketingCost × ℚ) (e : ℤ × ℚ) :
    List MarketingCost × ℚ :=
  (upsertMarketingCost st.1 shop "google" e.1 e.2
      ("Google Ads spend for " ++ toString e.1),
    st.2 + e.2)

/-- The whole store loop of `syncGoogleHistoricalData` over the `dailySpend`
entries, returning the final ledger and `totalAmount`. -/
def googleStoreAll (shop : String) (l : List MarketingCost)
    (m : List (ℤ × ℚ)) : List MarketingCost × ℚ :=
  m.foldl (googleStoreStep shop) (l, 0)

/-! ## Facebook insights pagination (`syncFacebookHistoricalData`) -/

/-- One response of the insights API: either an error payload or a data page
together with the presence of `paging.next`. -/
inductive FBPage where
  | err (msg : String)
  | ok (data : List FBInsight) (hasNext : Bool)
deriving DecidableEq, Repr

/-- The `while (nextUrl && pageCount < 20)` pagination loop of
`syncFacebookHistoricalData`: `provider i` is the response obtained by
fetching the `i`-th URL of the cursor chain. An error on page 0 returns the
hard failure; an error on a later page breaks with the accumulated insights;
a page without `paging.next` ends the loop after concatenating its data;
`pageCount` counts fetched non-error pages, and the loop stops at 20. The
returned pair is (loop outcome, final `pageCount`). -/
def fbPaginateAux (provider : ℕ → FBPage) (pageCount : ℕ)
    (acc : List FBInsight) : Except String (List FBInsight) × ℕ :=
  if pageCount < 20 then
    match provider pageCount with
    | .err m => if pageCount = 0 then (.error m, pageCount) else (.ok acc, pageCount)
    | .ok d hasNext =>
      if hasNext then fbPaginateAux provider (pageCount + 1) (acc ++ d)
      else (.ok (acc ++ d), pageCount + 1)
  else (.ok acc, pageCount)
termination_by 20 - pageCount
decreasing_by omega

/-- The pagination loop started as in the source (`pageCount = 0`, empty
accumulator). -/
def fbPaginate (provider : ℕ → FBPage) : Except String (List FBInsight) × ℕ :=
  fbPaginateAux provider 0 []

/-- Concatenation of `n` consecutive pages of data starting at page `pc`. -/
def catFrom (d : ℕ → List FBInsight) : ℕ → ℕ → List FBInsight
  | _, 0 => []
  | pc, n + 1 => d pc ++ catFrom d (pc + 1) n

/-! ## Fixed costs (`getFixedCosts` in `app/utils/database.ts`) -/

/-- A `FixedCost` row: timestamps in milliseconds. -/
structure FixedCost where
  shop : String
  category : String
  amount : ℚ
  startDate : ℤ
  endDate : Option ℤ
  recurring : Bool
deriving DecidableEq, Repr

/-- The Prisma `where` clause of `getFixedCosts`: recurring costs that
started on or before the range end and have no end date or an end date on or
after the range start, or one-time costs whose `startDate` lies inside the
range. -/
def fixedCostMatches (shop : String) (startDate endDate : ℤ) (c : FixedCost) : Bool :=
  c.shop == shop &&
    ((c.recurring && decide (c.startDate ≤ endDate) &&
        (match c.endDate with
         | none => true
         | some e => decide (startDate ≤ e)))
     ||
     (!c.recurring && decide (startDate ≤ c.startDate)
        && decide (c.startDate ≤ endDate)))

/-- `Math.ceil((endDate - startDate) / (1000 * 60 * 60 * 24))` of the
source. -/
def rangeDays (startDate endDate : ℤ) : ℤ :=
  ⌈((endDate - startDate : ℤ) : ℚ) / (1000 * 60 * 60 * 24)⌉

/-- `getFixedCosts` from the source: filter with the query, then accumulate
`amount * days / 30` for recurring costs and the full amount for one-time
costs. -/
def getFixedCosts (costs : List FixedCost) (shop : String)
    (startDate endDate : ℤ) : ℚ :=
  let matched := costs.filter (fixedCostMatches shop startDate endDate)
  let days := rangeDays startDate endDate
  matched.foldl
    (fun acc c =>
      acc + (if c.recurring then c.amount * (days : ℚ) / 30 else c.amount))
    0

/-- Spec-side definition (spec section 4.1): `prorate(amount, rangeDays,
periodBasisDays=30)` is linear scaling `amount * rangeDays / periodBasisDays`. -/
def prorate (amount : ℚ) (rd : ℤ) (periodBasisDays : ℚ) : ℚ :=
  amount * (rd : ℚ) / periodBasisDays

/-- Spec-side definition: the active interval `startDate..endDate` (or
open-ended) overlaps the query range `[s, e]`. -/
def overlapsRange (s e : ℤ) (c : FixedCost) : Bool :=
  decide (c.startDate ≤ e) &&
    (match c.endDate with
     | none => true
     | some ed => decide (s ≤ ed))

/-- Spec-side definition (spec section 4.2, phrased as in claim C3): for each
fixed cost of the shop, a recurring cost whose active interval overlaps the
range contributes `prorate(amount, rangeDays)`, and a one-time cost
contributes its full amount exactly when its `startDate` lies inside the
range. -/
def sumFixedCostsSpec (costs : List FixedCost) (shop : String) (s e : ℤ) : ℚ :=
  (costs.map fun c =>
    if c.shop == shop then
      if c.recurring then
        if overlapsRange s e c then prorate c.amount (rangeDays s e) 30 else 0
      else
        if decide (s ≤ c.startDate) && decide (c.startDate ≤ e) then c.amount else 0
    else 0).sum

/-! ## Target status (`getTargetStatus` in the dashboard `MetricCard`) -/

/-- JS `number` values as observed by `getTargetStatus`: finite values are
exact rationals, plus the IEEE Infinity and NaN values produced by division
by zero. -/
inductive JSNum where
  | num (q : ℚ)
  | posInf
  | negInf
  | nan
deriving DecidableEq, Repr

/-- IEEE division as observable here (finite arithmetic exact; division of a
nonzero finite value by zero gives a signed Infinity, `0 / 0` gives NaN). -/
def jsDiv : JSNum → JSNum → JSNum
  | .nan, _ => .nan
  | .num _, .nan => .nan
  | .num a, .num b =>
    if b = 0 then (if 0 < a then .posInf else if a < 0 then .negInf else .nan)
    else .num (a / b)
  | .num _, .posInf => .num 0
  | .num _, .negInf => .num 0
  | .posInf, .num b => if b < 0 then .negInf else .posInf
  | .posInf, .nan => .nan
  | .posInf, _ => .nan
  | .negInf, .num b => if b < 0 then .posInf else .negInf
  | .negInf, .nan => .nan
  | .negInf, _ => .nan

/-- IEEE multiplication as observable here (`Infinity * 0` is NaN). -/
def jsMul : JSNum → JSNum → JSNum
  | .nan, _ => .nan
  | .num a, .num b => .num (a * b)
  | .num a, .posInf => if 0 < a then .posInf else if a < 0 then .negInf else .nan
  | .num a, .negInf => if 0 < a then .negInf else if a < 0 then .posInf else .nan
  | .num _, .nan => .nan
  | .posInf, .num b => if 0 < b then .posInf else if b < 0 then .negInf else .nan
  | .posInf, .posInf => .posInf
  | .posInf, .negInf => .negInf
  | .posInf, .nan => .nan
  | .negInf, .num b => if 0 < b then .negInf else if b < 0 then .posInf else .nan
  | .negInf, .posInf => .negInf
  | .negInf, .negInf => .posInf
  | .negInf, .nan => .nan

/-- IEEE `>=` (false whenever either side is NaN). -/
def jsGe : JSNum → JSNum → Bool
  | .nan, _ => false
  | _, .nan => false
  | .num a, .num b => decide (b ≤ a)
  | .posInf, _ => true
  | .negInf, .negInf => true
  | .negInf, _ => false
  | .num _, .posInf => false
  | .num _, .negInf => true

/-- JS falsiness of a number (`!target`): 0 and NaN are falsy. -/
def jsFalsy : JSNum → Bool
  | .num q => q == 0
  | .nan => true
  | _ => false

/-- The tone of the Polaris badge returned by `getTargetStatus`. -/
inductive TargetTone where
  | success
  | attention
  | critical
deriving DecidableEq, Repr

/-- The record returned by `getTargetStatus` on the classified branches. -/
structure TargetStatus where
  tone : TargetTone
  icon : String
  label : String
  percent : JSNum
deriving DecidableEq, Repr

/-- `getTargetStatus` from the dashboard `MetricCard`: no/zero/NaN target
returns `null`; otherwise the observed value is projected to 30 days
(`value / currentPeriodDays * 30`), expressed as a percentage of the target,
and classified against the 100 and 80 thresholds. -/
def getTargetStatus (target : Option JSNum) (value : JSNum)
    (currentPeriodDays : JSNum) : Option TargetStatus :=
  match target with
  | none => none
  | some t =>
    if jsFalsy t || (t == .num 0) then none
    else
      let dailyAverage := jsDiv value currentPeriodDays
      let projectedMonthly := jsMul dailyAverage (.num 30)
      let percentOfTarget := jsMul (jsDiv projectedMonthly t) (.num 100)
      if jsGe percentOfTarget (.num 100) then
        some ⟨.success, "✓", "On Target", percentOfTarget⟩
      else if jsGe percentOfTarget (.num 80) then
        some ⟨.attention, "!", "Near Target", percentOfTarget⟩
      else
        some ⟨.critical, "✗", "Off Target", percentOfTarget⟩

/-! ## Period ranges (`getDateRangeForPeriod` in `app/utils/shopify-data.ts`)

The UTC calendar arithmetic of the JS `Date` methods used by the source is
implemented through the standard civil-from-days / days-from-civil
correspondence of the proleptic Gregorian calendar. -/

/-- Milliseconds per day. -/
def msPerDay : ℤ := 86400000

/-- The epoch day containing timestamp `t` (floor division). -/
def epochDay (t : ℤ) : ℤ := t.fdiv msPerDay

/-- Milliseconds elapsed since the start of `t`'s day. -/
def timeOfDay (t : ℤ) : ℤ := t.emod msPerDay

/-- Epoch day of the civil date `(y, m, d)` with month in 1..12. -/
def daysFromCivil (y m d : ℤ) : ℤ :=
  let yy := if m ≤ 2 then y - 1 else y
  let era := yy.fdiv 400
  let yoe := yy - era * 400
  let mp := (m + 9).emod 12
  let doy := (153 * mp + 2).fdiv 5 + d - 1
  let doe := yoe * 365 + yoe.fdiv 4 - yoe.fdiv 100 + doy
  era * 146097 + doe - 719468

/-- Civil date `(y, m, d)` of an epoch day, month in 1..12. -/
def civilFromDays (z : ℤ) : ℤ × ℤ × ℤ :=
  let zz := z + 719468
  let era := zz.fdiv 146097
  let doe := zz - era * 146097
  let yoe := (doe - doe.fdiv 1460 + doe.fdiv 36524 - doe.fdiv 146096).fdiv 365
  let y := yoe + era * 400
  let doy := doe - (365 * yoe + yoe.fdiv 4 - yoe.fdiv 100)
  let mp := (5 * doy + 2).fdiv 153
  let d := doy - (153 * mp + 2).fdiv 5 + 1
  let m := mp + (if mp < 10 then 3 else -9)
  (if m ≤ 2 then y + 1 else y, m, d)

/-- `Date.UTC(year, monthIndex, day, h, min, s, ms)`: `monthIndex` is
0-based and both month and day overflow roll over, as in JS. -/
def dateUTC (y m0 d h mi s ms : ℤ) : ℤ :=
  let yn := y + m0.fdiv 12
  let mn := m0.emod 12
  (daysFromCivil yn (mn + 1) 1 + (d - 1)) * msPerDay
    + h * 3600000 + mi * 60000 + s * 1000 + ms

/-- `d.getUTCDate()`: day of month of the timestamp. -/
def getUTCDate (t : ℤ) : ℤ := (civilFromDays (epochDay t)).2.2

/-- `d.getUTCMonth()`: 0-based month of the timestamp. -/
def getUTCMonth (t : ℤ) : ℤ := (civilFromDays (epochDay t)).2.1 - 1

/-- `d.setUTCDate(n)`: set the day of month to `n` (with rollover), keeping
the time of day. -/
def setUTCDate (t n : ℤ) : ℤ := t + (n - getUTCDate t) * msPerDay

/-- `d.setUTCMonth(m)`: set the 0-based month to `m` (with rollover of both
the month index and the kept day of month), keeping the time of day. -/
def setUTCMonth (t m : ℤ) : ℤ :=
  let c := civilFromDays (epochDay t)
  dateUTC c.1 m c.2.2 0 0 0 0 + timeOfDay t

/-- `d.setUTCHours(h, mi, s, ms)`: replace the time of day. -/
def setUTCHoursTo (t h mi s ms : ℤ) : ℤ :=
  (t - timeOfDay t) + h * 3600000 + mi * 60000 + s * 1000 + ms

/-- `getDateRangeForPeriod` from `app/utils/shopify-data.ts`. The
`Intl.DateTimeFormat` extraction of the current instant's year/month/day in
the shop's timezone is modelled by passing those local date parts directly
(`month` 0-indexed, as in the source after its `- 1`); the timezone string
only ever influences the result through these three parts. Returns
`(startDate, endDate)` in epoch milliseconds. -/
def getDateRangeForPeriod (period : String) (year month day : ℤ) : ℤ × ℤ :=
  let endDate0 := dateUTC year month day 23 59 59 999
  let startDate0 := dateUTC year month day 0 0 0 0
  match period with
  | "today" => (startDate0, endDate0)
  | "yesterday" =>
      (setUTCHoursTo (setUTCDate startDate0 (getUTCDate startDate0 - 1)) 0 0 0 0,
       setUTCHoursTo (setUTCDate endDate0 (getUTCDate endDate0 - 1)) 23 59 59 999)
  | "last7days" =>
      (setUTCHoursTo (setUTCDate startDate0 (getUTCDate startDate0 - 7)) 0 0 0 0,
       setUTCHoursTo endDate0 23 59 59 999)
  | "last30days" =>
      (setUTCHoursTo (setUTCDate startDate0 (getUTCDate startDate0 - 30)) 0 0 0 0,
       setUTCHoursTo endDate0 23 59 59 999)
  | "last60days" =>
      (setUTCHoursTo (setUTCDate startDate0 (getUTCDate startDate0 - 60)) 0 0 0 0,
       setUTCHoursTo endDate0 23 59 59 999)
  | "last90days" =>
      (setUTCHoursTo (setUTCDate startDate0 (getUTCDate startDate0 - 90)) 0 0 0 0,
       setUTCHoursTo endDate0 23 59 59 999)
  | "thisMonth" =>
      (setUTCHoursTo (setUTCDate startDate0 1) 0 0 0 0,
       setUTCHoursTo endDate0 23 59 59 999)
  | "lastMonth" =>
      (setUTCHoursTo
          (setUTCDate (setUTCMonth startDate0 (getUTCMonth startDate0 - 1)) 1)
          0 0 0 0,
       setUTCHoursTo (setUTCDate (setUTCDate endDate0 1) 0) 23 59 59 999)
  | _ =>
      (setUTCHoursTo (setUTCDate startDate0 (getUTCDate startDate0 - 30)) 0 0 0 0,
       setUTCHoursTo endDate0 23 59 59 999)

end ProfitApp

open ProfitApp

/-- Claim C2: for every sales input, costs input and fee percentage,
`calculateProfits` satisfies `variableCosts = shippingCosts + cogs +
totalSales * feePercent / 100` (transaction fees recomputed from sales),
`grossProfit = totalSales - variableCosts`, `contributionProfit =
grossProfit - marketingCosts`, `netProfit = contributionProfit - fixedCosts`;
and on the spec's concrete example (sales 1000, shipping 50, cogs 200,
marketing 100, fixed 50, fee 3 percent) it yields variableCosts 280 (fees 30),
grossProfit 720, contributionProfit 620, netProfit 570. -/
theorem claim_C2_profit_formula :
    (∀ (sales : SalesData) (costs : CostsData) (fee : ℚ),
      (calculateProfits sales costs fee).variableCosts
          = costs.shippingCosts + costs.cogs + sales.totalSales * fee / 100
        ∧ (calculateProfits sales costs fee).grossProfit
          = sales.totalSales - (calculateProfits sales costs fee).variableCosts
        ∧ (calculateProfits sales costs fee).contributionProfit
          = (calculateProfits sales costs fee).grossProfit - costs.marketingCosts
        ∧ (calculateProfits sales costs fee).netProfit
          = (calculateProfits sales costs fee).contributionProfit - costs.fixedCosts)
    ∧ (calculateProfits exampleSales exampleCosts 3).variableCosts = 280
    ∧ 1000 * 3 / 100 = (30 : ℚ)
    ∧ (calculateProfits exampleSales exampleCosts 3).grossProfit = 720
    ∧ (calculateProfits exampleSales exampleCosts 3).contributionProfit = 620
    ∧ (calculateProfits exampleSales exampleCosts 3).netProfit = 570 := by
  refine ⟨fun sales costs fee => ⟨rfl, rfl, by simp [calculateProfits],
    by simp [calculateProfits]⟩, ?_, ?_, ?_, ?_, ?_⟩ <;> norm_num [calculateProfits,
      exampleSales, exampleCosts]

/-- Claim C7: with `totalSales = 0`, every margin returned by
`calculateProfits` is exactly 0 (the `totalSales > 0` guard short-circuits the
division), for every costs input and fee percentage. -/
theorem claim_C7_zero_sales_margins :
    ∀ (nc rc oc ncc rcc : ℚ) (costs : CostsData) (fee : ℚ),
      (calculateProfits ⟨0, nc, rc, oc, ncc, rcc⟩ costs fee).grossMargin = 0
      ∧ (calculateProfits ⟨0, nc, rc, oc, ncc, rcc⟩ costs fee).contributionMargin = 0
      ∧ (calculateProfits ⟨0, nc, rc, oc, ncc, rcc⟩ costs fee).netMargin = 0 := by
  intro nc rc oc ncc rcc costs fee
  refine ⟨?_, ?_, ?_⟩ <;> simp [calculateProfits]

/-- Claim C8: `calculateTrend current previous` equals
`(current - previous) / previous * 100` when `previous` is nonzero and equals
0 when `previous = 0`; in particular `calculateTrend x 0 = 0` for every `x`. -/
theorem claim_C8_trend :
    ∀ current previous : ℚ,
      calculateTrend current previous
        = (if previous = 0 then 0 else (current - previous) / previous * 100)
      ∧ calculateTrend current 0 = 0 := by
  intro current previous
  constructor
  · rfl
  · simp [calculateTrend]

namespace ProfitApp

theorem updateFirst_append_of_none (p : MarketingCost → Bool)
    (f : MarketingCost → MarketingCost) (l l' : List MarketingCost)
    (h : ∀ x ∈ l, p x = false) :
    updateFirst p f (l ++ l') = l ++ updateFirst p f l' := by
  induction l with
  | nil => simp
  | cons r rs ih =>
    have hr : p r = false := h r (List.mem_cons_self _ _)
    simp [updateFirst, hr, ih fun x hx => h x (List.mem_cons_of_mem _ hx)]

theorem mem_updateFirst {p : MarketingCost → Bool} {f : MarketingCost → MarketingCost}
    {r : MarketingCost} {l : List MarketingCost}
    (h : r ∈ updateFirst p f l) : r ∈ l ∨ ∃ x ∈ l, r = f x := by
  induction l with
  | nil => simp [updateFirst] at h
  | cons a as ih =>
    by_cases hp : p a
    · simp only [updateFirst, hp, if_pos, List.mem_cons] at h
      rcases h with h | h
      · exact Or.inr ⟨a, by simp, h⟩
      · exact Or.inl (List.mem_cons_of_mem _ h)
    · simp only [updateFirst, hp, if_neg, Bool.false_eq_true, not_false_iff,
        List.mem_cons] at h
      rcases h with h | h
      · exact Or.inl (by simp [h])
      · rcases ih h with h' | ⟨x, hx, hfx⟩
        · exact Or.inl (List.mem_cons_of_mem _ h')
        · exact Or.inr ⟨x, List.mem_cons_of_mem _ hx, hfx⟩

theorem mem_fbStoreDay {l : List MarketingCost} {shop : String} {costDate : ℤ}
    {spend : ℚ} {desc : String} {r : MarketingCost}
    (h : r ∈ fbStoreDay l shop costDate spend desc) : r ∈ l ∨ r.amount = spend := by
  unfold fbStoreDay at h
  by_cases hany : l.any (fbDayMatch shop costDate (costDate + 86399999))
  · simp only [hany, if_pos] at h
    rcases mem_updateFirst h with h' | ⟨x, _, hfx⟩
    · exact Or.inl h'
    · exact Or.inr (by simp [hfx])
  · simp only [hany, if_neg, Bool.false_eq_true, not_false_iff, List.mem_append,
      List.mem_singleton] at h
    rcases h with h | h
    · exact Or.inl h
    · exact Or.inr (by simp [h])

theorem mem_upsertMarketingCost {l : List MarketingCost} {shop platform : String}
    {date : ℤ} {amount : ℚ} {desc : String} {r : MarketingCost}
    (h : r ∈ upsertMarketingCost l shop platform date amount desc) :
    r ∈ l ∨ r.amount = amount := by
  unfold upsertMarketingCost at h
  by_cases hany : l.any (keyMatch shop platform date)
  · simp only [hany, if_pos, List.mem_map] at h
    rcases h with ⟨x, hx, hfx⟩
    by_cases hk : keyMatch shop platform date x
    · exact Or.inr (by simp [← hfx, applyAmount, hk])
    · have hxr : x = r := by simpa [applyAmount, hk] using hfx
      exact Or.inl (hxr ▸ hx)
  · simp only [hany, if_neg, Bool.false_eq_true, not_false_iff, List.mem_append,
      List.mem_singleton] at h
    rcases h with h | h
    · exact Or.inl h
    · exact Or.inr (by simp [h])

theorem fbSyncFold_mem {shop : String} {ins : List FBInsight} :
    ∀ (st : List MarketingCost × ℚ) (r : MarketingCost),
      r ∈ (ins.foldl (fbSyncStep shop) st).1 → r ∈ st.1 ∨ 0 < r.amount := by
  induction ins with
  | nil => intro st r h; exact Or.inl h
  | cons i is ih =>
    intro st r h
    rw [List.foldl_cons] at h
    rcases ih _ r h with h' | h'
    · by_cases hs : 0 < i.spend
      · simp only [fbSyncStep, hs, if_pos] at h'
        rcases mem_fbStoreDay h' with h'' | h''
        · exact Or.inl h''
        · exact Or.inr (h'' ▸ hs)
      · simp only [fbSyncStep, hs, if_neg, Bool.false_eq_true, not_false_iff] at h'
        exact Or.inl h'
    · exact Or.inr h'

theorem fbSyncFold_total {shop : String} {ins : List FBInsight} :
    ∀ st : List MarketingCost × ℚ,
      (ins.foldl (fbSyncStep shop) st).2
        = st.2 + ((ins.filter fun i => decide (0 < i.spend)).map FBInsight.spend).sum := by
  induction ins with
  | nil => intro st; simp
  | cons i is ih =>
    intro st
    rw [List.foldl_cons, ih]
    by_cases hs : 0 < i.spend
    · simp only [fbSyncStep, hs, if_pos, List.filter_cons, decide_eq_true_eq]
      simp [hs, add_assoc]
    · simp only [fbSyncStep, hs, if_neg, List.filter_cons, decide_eq_true_eq]
      simp [hs]

theorem bumpSpend_pos {m : List (ℤ × ℚ)} {d : ℤ} {c : ℚ}
    (hm : ∀ e ∈ m, 0 < Prod.snd e) (hc : 0 < c) :
    ∀ e ∈ bumpSpend m d c, 0 < Prod.snd e := by
  intro e he
  unfold bumpSpend at he
  by_cases h : m.any (fun e => e.1 == d)
  · simp only [h, if_pos, List.mem_map] at he
    rcases he with ⟨x, hx, hxe⟩
    by_cases hxd : x.1 == d
    · have hex : e = (x.1, x.2 + c) := by simpa [hxd] using hxe.symm
      have hx2 := hm x hx
      rw [hex]
      exact add_pos hx2 hc
    · have : e = x := by simpa [hxd] using hxe.symm
      exact this ▸ hm x hx
  · simp only [h, if_neg, Bool.false_eq_true, not_false_iff, List.mem_append,
      List.mem_singleton] at he
    rcases he with he | he
    · exact hm e he
    · simp [he, hc]

theorem googleAggFold_pos {rows : List GoogleRow} :
    ∀ m, (∀ e ∈ m, 0 < Prod.snd e) →
      ∀ e ∈ rows.foldl googleAggStep m, 0 < Prod.snd e := by
  induction rows with
  | nil => intro m hm e he; exact hm e he
  | cons row rs ih =>
    intro m hm e he
    rw [List.foldl_cons] at he
    refine ih _ ?_ e he
    intro x hx
    unfold googleAggStep at hx
    by_cases h : row.hasDate && decide (0 < row.costMicros / 1000000)
    · simp only [h, if_pos] at hx
      have hc : 0 < row.costMicros / 1000000 :=
        of_decide_eq_true (Bool.and_elim_right h)
      exact bumpSpend_pos hm hc x hx
    · simp only [h, Bool.false_eq_true, not_false_iff, if_neg] at hx
      exact hm x hx

theorem googleFold_mem {shop : String} {m : List (ℤ × ℚ)} :
    (∀ e ∈ m, 0 < Prod.snd e) →
    ∀ (st : List MarketingCost × ℚ) (r : MarketingCost),
      r ∈ (m.foldl (googleStoreStep shop) st).1 → r ∈ st.1 ∨ 0 < r.amount := by
  induction m with
  | nil => intro _ st r h; exact Or.inl h
  | cons e es ih =>
    intro hm st r h
    rw [List.foldl_cons] at h
    rcases ih (fun x hx => hm x (List.mem_cons_of_mem _ hx)) _ r h with h' | h'
    · rcases mem_upsertMarketingCost h' with h'' | h''
      · exact Or.inl h''
      · exact Or.inr (h'' ▸ hm e (List.mem_cons_self _ _))
    · exact Or.inr h'

theorem googleFold_total {shop : String} {m : List (ℤ × ℚ)} :
    ∀ st : List MarketingCost × ℚ,
      (m.foldl (googleStoreStep shop) st).2 = st.2 + (m.map Prod.snd).sum := by
  induction m with
  | nil => intro st; simp
  | cons e es ih =>
    intro st
    rw [List.foldl_cons, ih]
    simp [googleStoreStep, add_assoc]

end ProfitApp

/-- Claim C9: `calculateProfits` never reads the `transactionFees` field of its
costs input — two costs inputs differing only in that field produce identical
metrics for every sales input and fee percentage. -/
theorem claim_C9_fees_field_ignored :
    ∀ (sales : SalesData) (sh cg tf₁ tf₂ mk fx fee : ℚ),
      calculateProfits sales ⟨sh, cg, tf₁, mk, fx⟩ fee
        = calculateProfits sales ⟨sh, cg, tf₂, mk, fx⟩ fee := by
  intro sales sh cg tf₁ tf₂ mk fx fee
  rfl

namespace ProfitApp

theorem keyMatch_applyAmount (shop platform : String) (date : ℤ) (amount : ℚ)
    (desc : String) (r : MarketingCost) :
    keyMatch shop platform date (applyAmount shop platform date amount desc r)
      = keyMatch shop platform date r := by
  by_cases hk : keyMatch shop platform date r
  · simp only [applyAmount, hk, if_pos]
    simp only [keyMatch] at hk ⊢
    exact hk
  · simp [applyAmount, hk]

end ProfitApp

/-- Claim C1 (amended): on the two historical daily-spend sync paths the
stored record really is create-or-replace keyed by (shop, platform, calendar
day): starting from any ledger holding no record for the key, performing the
Google `upsert`-based store twice with different amounts leaves exactly one
record for the key, holding the amount of the later call; likewise for the
Facebook historical find-in-day-window-then-update-else-create store. The
range-total path `syncFacebookAdCosts` does not have this property (see the
counterexample). -/
theorem claim_C1_upsert_overwrites :
    (∀ (l : List MarketingCost) (shop : String) (date : ℤ) (a₁ a₂ : ℚ) (d₁ d₂ : String),
      l.filter (keyMatch shop "google" date) = [] →
      ((upsertMarketingCost (upsertMarketingCost l shop "google" date a₁ d₁)
          shop "google" date a₂ d₂).filter (keyMatch shop "google" date)).map
        MarketingCost.amount = [a₂])
    ∧ (∀ (l : List MarketingCost) (shop : String) (costDate : ℤ) (a₁ a₂ : ℚ) (d₁ d₂ : String),
      l.filter (fbDayMatch shop costDate (costDate + 86399999)) = [] →
      ((fbStoreDay (fbStoreDay l shop costDate a₁ d₁) shop costDate a₂ d₂).filter
          (fbDayMatch shop costDate (costDate + 86399999))).map
        MarketingCost.amount = [a₂]) := by
  constructor
  · intro l shop date a₁ a₂ d₁ d₂ h
    have hall : ∀ x ∈ l, ¬ keyMatch shop "google" date x :=
      List.filter_eq_nil_iff.mp h
    have hany : l.any (keyMatch shop "google" date) = false :=
      List.any_eq_false.mpr hall
    have h1 : upsertMarketingCost l shop "google" date a₁ d₁
        = l ++ [⟨shop, "google", a₁, date, d₁⟩] := by
      simp [upsertMarketingCost, hany]
    have hkey : keyMatch shop "google" date (⟨shop, "google", a₁, date, d₁⟩ : MarketingCost)
        = true := by simp [keyMatch]
    have hany2 : (l ++ [(⟨shop, "google", a₁, date, d₁⟩ : MarketingCost)]).any
        (keyMatch shop "google" date) = true := by
      simp [List.any_append, hkey]
    rw [h1]
    show ((upsertMarketingCost (l ++ [⟨shop, "google", a₁, date, d₁⟩]) shop "google"
        date a₂ d₂).filter (keyMatch shop "google" date)).map MarketingCost.amount = [a₂]
    rw [upsertMarketingCost, if_pos hany2, List.filter_map]
    have hcomp : (keyMatch shop "google" date ∘ applyAmount shop "google" date a₂ d₂)
        = keyMatch shop "google" date := by
      funext r
      exact keyMatch_applyAmount shop "google" date a₂ d₂ r
    rw [hcomp, List.filter_append, h, List.nil_append]
    rw [List.filter_cons, hkey]
    simp [applyAmount, hkey]
  · intro l shop costDate a₁ a₂ d₁ d₂ h
    have hall : ∀ x ∈ l, ¬ fbDayMatch shop costDate (costDate + 86399999) x :=
      List.filter_eq_nil_iff.mp h
    have hany : l.any (fbDayMatch shop costDate (costDate + 86399999)) = false :=
      List.any_eq_false.mpr hall
    have hkey : fbDayMatch shop costDate (costDate + 86399999)
        (⟨shop, "facebook", a₁, costDate, d₁⟩ : MarketingCost) = true := by
      simp [fbDayMatch]
    have h1 : fbStoreDay l shop costDate a₁ d₁
        = l ++ [⟨shop, "facebook", a₁, costDate, d₁⟩] := by
      simp [fbStoreDay, hany]
    have hany2 : (l ++ [(⟨shop, "facebook", a₁, costDate, d₁⟩ : MarketingCost)]).any
        (fbDayMatch shop costDate (costDate + 86399999)) = true := by
      simp [List.any_append, hkey]
    rw [h1]
    show ((fbStoreDay (l ++ [⟨shop, "facebook", a₁, costDate, d₁⟩]) shop costDate
        a₂ d₂).filter (fbDayMatch shop costDate (costDate + 86399999))).map
        MarketingCost.amount = [a₂]
    rw [fbStoreDay]
    simp only [hany2, if_pos]
    rw [updateFirst_append_of_none _ _ _ _
      (fun x hx => Bool.eq_false_iff.mpr (hall x hx))]
    rw [updateFirst, if_pos hkey]
    rw [List.filter_append, h, List.nil_append]
    rw [List.filter_cons]
    have hkeyu : fbDayMatch shop costDate (costDate + 86399999)
        ({ (⟨shop, "facebook", a₁, costDate, d₁⟩ : MarketingCost) with
            amount := a₂, date := costDate, description := d₂ }) = true := by
      simp [fbDayMatch]
    simp [hkeyu]

/-- Claim C1 counterexample: `syncFacebookAdCosts` is also a sync path that
stores fetched spend, but its store step unconditionally creates a new row;
calling it twice with the same (shop, platform, date) key and amounts 10 then
20 leaves two records for the key, with amounts 10 and 20, not one record
with the later amount. -/
theorem claim_C1_counterexample :
    ((syncFacebookAdCostsStore
        (syncFacebookAdCostsStore [] "shop1.myshopify.com" 0 10 "d1")
        "shop1.myshopify.com" 0 20 "d2").filter
      (keyMatch "shop1.myshopify.com" "facebook" 0)).map MarketingCost.amount
      = [10, 20] := by
  decide

/-- Claim C1 witness: the amended theorem applied to the empty ledger. -/
theorem claim_C1_witness :
    ((upsertMarketingCost (upsertMarketingCost [] "s.myshopify.com" "google" 0 5 "a")
        "s.myshopify.com" "google" 0 7 "b").filter
      (keyMatch "s.myshopify.com" "google" 0)).map MarketingCost.amount = [7]
    ∧ ((fbStoreDay (fbStoreDay [] "s.myshopify.com" 0 5 "a") "s.myshopify.com" 0 7 "b").filter
      (fbDayMatch "s.myshopify.com" 0 (0 + 86399999))).map MarketingCost.amount = [7] := by
  exact ⟨claim_C1_upsert_overwrites.1 [] "s.myshopify.com" 0 5 7 "a" "b" rfl,
    claim_C1_upsert_overwrites.2 [] "s.myshopify.com" 0 5 7 "a" "b" rfl⟩

namespace ProfitApp

theorem foldl_add_eq_sum (g : FixedCost → ℚ) (l : List FixedCost) :
    ∀ a : ℚ, l.foldl (fun acc c => acc + g c) a = a + (l.map g).sum := by
  induction l with
  | nil => intro a; simp
  | cons x xs ih => intro a; simp [List.foldl_cons, ih, add_assoc]

theorem sum_map_filter (p : FixedCost → Bool) (g : FixedCost → ℚ) (l : List FixedCost) :
    ((l.filter p).map g).sum = (l.map fun c => if p c then g c else 0).sum := by
  induction l with
  | nil => simp
  | cons x xs ih =>
    by_cases hp : p x <;> simp [List.filter_cons, hp, ih]

theorem fixedCostElement_eq (shop : String) (s e : ℤ) (c : FixedCost) :
    (if fixedCostMatches shop s e c then
        (if c.recurring then c.amount * ((rangeDays s e : ℤ) : ℚ) / 30 else c.amount)
      else 0)
      = (if c.shop == shop then
          if c.recurring then
            if overlapsRange s e c then prorate c.amount (rangeDays s e) 30 else 0
          else
            if decide (s ≤ c.startDate) && decide (c.startDate ≤ e) then c.amount else 0
        else 0) := by
  by_cases hs : c.shop == shop
  · by_cases hr : c.recurring
    · cases hce : c.endDate with
      | none =>
        by_cases h1 : c.startDate ≤ e <;>
          simp [fixedCostMatches, overlapsRange, prorate, hs, hr, hce, h1]
      | some ed =>
        by_cases h1 : c.startDate ≤ e <;> by_cases h2 : s ≤ ed <;>
          simp [fixedCostMatches, overlapsRange, prorate, hs, hr, hce, h1, h2]
    · by_cases h1 : s ≤ c.startDate <;> by_cases h2 : c.startDate ≤ e <;>
        simp [fixedCostMatches, hs, hr, h1, h2]
  · simp [fixedCostMatches, hs]

end ProfitApp

/-- Claim C3: the fixed-cost aggregation equals the spec's description — each
recurring fixed cost of the shop whose active interval overlaps the range
contributes the prorated `amount * rangeDays / 30`, each one-time fixed cost
contributes its full amount exactly when its `startDate` lies inside the
range; and a recurring cost of amount 300 over a 10-day range contributes
exactly 100. -/
theorem claim_C3_fixed_cost_proration :
    (∀ (costs : List FixedCost) (shop : String) (s e : ℤ),
      getFixedCosts costs shop s e = sumFixedCostsSpec costs shop s e)
    ∧ getFixedCosts [⟨"s.myshopify.com", "software", 300, 0, none, true⟩]
        "s.myshopify.com" 0 864000000 = 100 := by
  constructor
  · intro costs shop s e
    show (costs.filter (fixedCostMatches shop s e)).foldl
        (fun acc c =>
          acc + (if c.recurring then c.amount * ((rangeDays s e : ℤ) : ℚ) / 30
                 else c.amount)) 0
      = sumFixedCostsSpec costs shop s e
    rw [foldl_add_eq_sum
      (fun c => if c.recurring then c.amount * ((rangeDays s e : ℤ) : ℚ) / 30
                else c.amount)]
    rw [zero_add, sum_map_filter]
    unfold sumFixedCostsSpec
    congr 1
    apply List.map_congr_left
    intro c _
    exact fixedCostElement_eq shop s e c
  · have hd : rangeDays 0 864000000 = 10 := by
      unfold rangeDays
      norm_num
    show (0 : ℚ) + (if true then (300 : ℚ) * ((rangeDays 0 864000000 : ℤ) : ℚ) / 30 else 300) = 100
    rw [hd]
    norm_num

namespace ProfitApp

theorem fbPaginateAux_all_next (provider : ℕ → FBPage) (d : ℕ → List FBInsight)
    (hp : ∀ i, provider i = .ok (d i) true) :
    ∀ (n pc : ℕ), pc + n = 20 → ∀ acc,
      fbPaginateAux provider pc acc = (.ok (acc ++ catFrom d pc n), 20) := by
  intro n
  induction n with
  | zero =>
    intro pc hpc acc
    rw [fbPaginateAux]
    simp [Nat.add_zero] at hpc
    simp [hpc, catFrom]
  | succ n ih =>
    intro pc hpc acc
    have hlt : pc < 20 := by omega
    rw [fbPaginateAux]
    simp only [hlt, if_pos, hp pc, if_true]
    rw [ih (pc + 1) (by omega) (acc ++ d pc)]
    simp [catFrom, List.append_assoc]

theorem fbPaginateAux_stop (provider : ℕ → FBPage) (d : ℕ → List FBInsight) :
    ∀ (n pc : ℕ) (acc : List FBInsight), pc + n < 20 →
      (∀ i, pc ≤ i → i < pc + n → provider i = .ok (d i) true) →
      provider (pc + n) = .ok (d (pc + n)) false →
      fbPaginateAux provider pc acc
        = (.ok (acc ++ catFrom d pc (n + 1)), pc + n + 1) := by
  intro n
  induction n with
  | zero =>
    intro pc acc hlt _ hstop
    rw [fbPaginateAux]
    simp only [Nat.add_zero] at hlt hstop
    simp [hlt, hstop, catFrom]
  | succ n ih =>
    intro pc acc hlt hok hstop
    have hpc : pc < 20 := by omega
    have hfirst : provider pc = .ok (d pc) true := hok pc (Nat.le_refl pc) (by omega)
    rw [fbPaginateAux]
    simp only [hpc, if_pos, hfirst, if_true]
    rw [ih (pc + 1) (acc ++ d pc) (by omega)
      (fun i h1 h2 => hok i (by omega) (by omega))
      (by rw [show pc + 1 + n = pc + (n + 1) by omega]; exact hstop)]
    rw [Prod.ext_iff]
    constructor
    · simp [catFrom, List.append_assoc]
    · simp only []
      omega

theorem fbPaginateAux_err_later (provider : ℕ → FBPage) (d : ℕ → List FBInsight)
    (m : String) :
    ∀ (n pc : ℕ) (acc : List FBInsight), pc + n < 20 → 0 < pc + n →
      (∀ i, pc ≤ i → i < pc + n → provider i = .ok (d i) true) →
      provider (pc + n) = .err m →
      fbPaginateAux provider pc acc = (.ok (acc ++ catFrom d pc n), pc + n) := by
  intro n
  induction n with
  | zero =>
    intro pc acc hlt hpos _ herr
    rw [fbPaginateAux]
    simp only [Nat.add_zero] at hlt hpos herr
    have : pc ≠ 0 := by omega
    simp [hlt, herr, this, catFrom]
  | succ n ih =>
    intro pc acc hlt hpos hok herr
    have hpc : pc < 20 := by omega
    have hfirst : provider pc = .ok (d pc) true := hok pc (Nat.le_refl pc) (by omega)
    rw [fbPaginateAux]
    simp only [hpc, if_pos, hfirst, if_true]
    rw [ih (pc + 1) (acc ++ d pc) (by omega) (by omega)
      (fun i h1 h2 => hok i (by omega) (by omega))
      (by rw [show pc + 1 + n = pc + (n + 1) by omega]; exact herr)]
    rw [Prod.ext_iff]
    constructor
    · simp [catFrom, List.append_assoc]
    · simp only []
      omega

end ProfitApp

/-- Claim C5: the Facebook historical sync follows pagination cursors,
concatenating each page's results, until a page has no `paging.next` or the
safety cap of 20 pages is reached; hitting the cap still yields a success
with the 20 concatenated pages; an error payload on the very first page is a
hard failure; an error on a later page stops pagination and yields success
with the pages accumulated so far. -/
theorem claim_C5_pagination :
    (∀ (provider : ℕ → FBPage) (d : ℕ → List FBInsight) (k : ℕ), k < 20 →
      (∀ i, i < k → provider i = .ok (d i) true) →
      provider k = .ok (d k) false →
      fbPaginate provider = (.ok (catFrom d 0 (k + 1)), k + 1))
    ∧ (∀ (provider : ℕ → FBPage) (d : ℕ → List FBInsight),
      (∀ i, provider i = .ok (d i) true) →
      fbPaginate provider = (.ok (catFrom d 0 20), 20))
    ∧ (∀ (provider : ℕ → FBPage) (m : String),
      provider 0 = .err m → fbPaginate provider = (.error m, 0))
    ∧ (∀ (provider : ℕ → FBPage) (d : ℕ → List FBInsight) (m : String) (k : ℕ),
      0 < k → k < 20 →
      (∀ i, i < k → provider i = .ok (d i) true) →
      provider k = .err m →
      fbPaginate provider = (.ok (catFrom d 0 k), k)) := by
  refine ⟨?_, ?_, ?_, ?_⟩
  · intro provider d k hk hok hstop
    have := fbPaginateAux_stop provider d k 0 [] (by omega)
      (fun i _ h2 => hok i (by omega)) (by simpa using hstop)
    simpa [fbPaginate] using this
  · intro provider d hp
    have := fbPaginateAux_all_next provider d hp 20 0 rfl []
    simpa [fbPaginate] using this
  · intro provider m h
    rw [fbPaginate, fbPaginateAux]
    simp [h]
  · intro provider d m k hk0 hk hok herr
    have := fbPaginateAux_err_later provider d m k 0 [] (by omega) (by omega)
      (fun i _ h2 => hok i (by omega)) (by simpa using herr)
    simpa [fbPaginate] using this

/-- Claim C5 witness: the theorem applied to three concrete cursor chains —
a 3-page exhaustion, an always-next chain hitting the 20-page cap, a page-0
error, and a page-1 error with a partial result. -/
theorem claim_C5_witness :
    fbPaginate (fun i => if i < 2 then .ok [⟨1, (i : ℤ)⟩] true
        else .ok [⟨1, 2⟩] false)
      = (.ok [⟨1, 0⟩, ⟨1, 1⟩, ⟨1, 2⟩], 3)
    ∧ fbPaginate (fun _ => .ok [] true) = (.ok [], 20)
    ∧ fbPaginate (fun _ => .err "boom") = (.error "boom", 0)
    ∧ fbPaginate (fun i => if i = 0 then .ok [⟨1, 0⟩] true else .err "late")
      = (.ok [⟨1, 0⟩], 1) := by
  refine ⟨?_, ?_, ?_, ?_⟩
  · have := claim_C5_pagination.1
      (fun i => if i < 2 then .ok [⟨1, (i : ℤ)⟩] true else .ok [⟨1, 2⟩] false)
      (fun i => if i < 2 then [⟨1, (i : ℤ)⟩] else [⟨1, 2⟩]) 2 (by omega)
      (fun i hi => by simp [hi]) (by simp)
    rw [this]
    rfl
  · have := claim_C5_pagination.2.1 (fun _ => .ok [] true) (fun _ => [])
      (fun _ => rfl)
    rw [this]
    rfl
  · exact claim_C5_pagination.2.2.1 (fun _ => .err "boom") "boom" rfl
  · have := claim_C5_pagination.2.2.2
      (fun i => if i = 0 then .ok [⟨1, 0⟩] true else .err "late")
      (fun _ => [⟨1, 0⟩]) "late" 1 (by omega) (by omega)
      (fun i hi => by simp [show i = 0 by omega]) (by simp)
    rw [this]
    rfl

/-- Claim C4 counterexample: at an observed period of N = 0 days with value
450 and target 1000, `getTargetStatus` does not return "no status" — the JS
division `450 / 0` yields Infinity, which projects to Infinity percent of
target and is classified "On Target". -/
theorem claim_C4_counterexample :
    getTargetStatus (some (.num 1000)) (.num 450) (.num 0)
      = some ⟨.success, "✓", "On Target", .posInf⟩
    ∧ getTargetStatus (some (.num 1000)) (.num 450) (.num 0) ≠ none := by
  refine ⟨by decide, by decide⟩

/-- Claim C4 (amended): the guard of `getTargetStatus` applies to the target,
not to the period length — a missing, zero or NaN target yields no status;
with a positive finite target and a positive period length N the projection
`value / N * 30` is classified against the monthly target (at least 100
percent of target is "On Target", at least 80 percent "Near Target",
otherwise "Off Target"); with N = 0 and a positive finite value the
projection is Infinity and the result is "On Target", not "no status"; and
value 450 over 15 days against target 1000 projects 900 (90 percent),
classified "Near Target". -/
theorem claim_C4_target_status :
    (∀ (v n : JSNum), getTargetStatus none v n = none)
    ∧ (∀ (v n : JSNum), getTargetStatus (some (.num 0)) v n = none)
    ∧ (∀ (v n : JSNum), getTargetStatus (some .nan) v n = none)
    ∧ (∀ (v t n : ℚ), t ≠ 0 → n ≠ 0 →
        getTargetStatus (some (.num t)) (.num v) (.num n)
          = (if 100 ≤ v / n * 30 / t * 100 then
               some ⟨.success, "✓", "On Target", .num (v / n * 30 / t * 100)⟩
             else if 80 ≤ v / n * 30 / t * 100 then
               some ⟨.attention, "!", "Near Target", .num (v / n * 30 / t * 100)⟩
             else
               some ⟨.critical, "✗", "Off Target", .num (v / n * 30 / t * 100)⟩))
    ∧ (∀ (v t : ℚ), 0 < v → 0 < t →
        getTargetStatus (some (.num t)) (.num v) (.num 0)
          = some ⟨.success, "✓", "On Target", .posInf⟩)
    ∧ getTargetStatus (some (.num 1000)) (.num 450) (.num 15)
        = some ⟨.attention, "!", "Near Target", .num 90⟩ := by
  refine ⟨fun v n => rfl, fun v n => by simp [getTargetStatus, jsFalsy],
    fun v n => by simp [getTargetStatus, jsFalsy], ?_, ?_,
    by norm_num [getTargetStatus, jsFalsy, jsDiv, jsMul, jsGe]⟩
  · intro v t n ht hn
    simp only [getTargetStatus, jsFalsy, jsDiv, jsMul, jsGe, hn, ht, if_neg,
      beq_iff_eq, Bool.or_self, Bool.false_or, if_false, decide_eq_true_eq]
    split_ifs <;> simp_all
  · intro v t hv ht
    have hv' : ¬ v < 0 := not_lt.mpr hv.le
    have ht0 : ¬ t < 0 := not_lt.mpr ht.le
    have htne : t ≠ 0 := ne_of_gt ht
    simp [getTargetStatus, jsFalsy, jsDiv, jsMul, jsGe, hv, hv', ht0, htne]

/-- Claim C4 witness: the amended theorem applied at concrete inputs — value
100 over 10 days against target 500 projects 300 (60 percent, "Off Target"),
and value 1 over 0 days against target 2 is classified "On Target". -/
theorem claim_C4_witness :
    getTargetStatus (some (.num 500)) (.num 100) (.num 10)
      = some ⟨.critical, "✗", "Off Target", .num 60⟩
    ∧ getTargetStatus (some (.num 2)) (.num 1) (.num 0)
      = some ⟨.success, "✓", "On Target", .posInf⟩ := by
  constructor
  · have h := claim_C4_target_status.2.2.2.1 100 500 10 (by norm_num) (by norm_num)
    rw [h]
    norm_num
  · exact claim_C4_target_status.2.2.2.2.1 1 2 (by norm_num) (by norm_num)

/-- Claim C10 evaluation at the failing input: for the "lastMonth" period
computed on a tenant-local date of 2026-05-31, `getDateRangeForPeriod`
returns a startDate of 2026-05-01T00:00:00.000Z — the first day of the
current month, because the JS `setUTCMonth` rollover turns "April 31" into
May 1 before `setUTCDate(1)` runs — while the endDate is
2026-04-30T23:59:59.999Z; the returned endDate is therefore strictly before
the startDate, contradicting the invariant that `startDate` is strictly
earlier than `endDate`. -/
theorem claim_C10_lastMonth_inverted :
    (getDateRangeForPeriod "lastMonth" 2026 4 31).1 = dateUTC 2026 4 1 0 0 0 0
    ∧ (getDateRangeForPeriod "lastMonth" 2026 4 31).1 = 1777593600000
    ∧ (getDateRangeForPeriod "lastMonth" 2026 4 31).2 = 1777593599999
    ∧ (getDateRangeForPeriod "lastMonth" 2026 4 31).2
        < (getDateRangeForPeriod "lastMonth" 2026 4 31).1 := by
  refine ⟨by decide, by decide, by decide, by decide⟩

/-- Claim C6: on every sync store path a day with non-positive reported spend
produces no ledger operation at all; every row a sync adds or rewrites has a
strictly positive amount; and the accumulated running total sums exactly the
stored positive amounts — for the Facebook historical loop, the Google
aggregate-then-store loop, and the Facebook range-total store. -/
theorem claim_C6_zero_spend_filtering :
    (∀ (shop : String) (st : List MarketingCost × ℚ) (i : FBInsight),
      ¬ 0 < i.spend → fbSyncStep shop st i = st)
    ∧ (∀ (shop : String) (l : List MarketingCost) (ins : List FBInsight)
        (r : MarketingCost), r ∈ (fbSyncDays shop l ins).1 → r ∈ l ∨ 0 < r.amount)
    ∧ (∀ (shop : String) (l : List MarketingCost) (ins : List FBInsight),
      (fbSyncDays shop l ins).2
        = ((ins.filter fun i => decide (0 < i.spend)).map FBInsight.spend).sum)
    ∧ (∀ (rows : List GoogleRow) (e : ℤ × ℚ),
      e ∈ googleDailySpend rows → 0 < e.2)
    ∧ (∀ (shop : String) (l : List MarketingCost) (rows : List GoogleRow)
        (r : MarketingCost),
      r ∈ (googleStoreAll shop l (googleDailySpend rows)).1 → r ∈ l ∨ 0 < r.amount)
    ∧ (∀ (shop : String) (l : List MarketingCost) (m : List (ℤ × ℚ)),
      (googleStoreAll shop l m).2 = (m.map Prod.snd).sum)
    ∧ (∀ (l : List MarketingCost) (shop : String) (dt : ℤ) (sp : ℚ) (d : String),
      ¬ 0 < sp → syncFacebookAdCostsStore l shop dt sp d = l)
    ∧ (∀ (l : List MarketingCost) (shop : String) (dt : ℤ) (sp : ℚ) (d : String)
        (r : MarketingCost),
      r ∈ syncFacebookAdCostsStore l shop dt sp d → r ∈ l ∨ 0 < r.amount) := by
  refine ⟨?_, ?_, ?_, ?_, ?_, ?_, ?_, ?_⟩
  · intro shop st i h
    simp [fbSyncStep, h]
  · intro shop l ins r h
    exact fbSyncFold_mem (l, 0) r h
  · intro shop l ins
    simpa [fbSyncDays] using @fbSyncFold_total shop ins (l, 0)
  · intro rows e he
    exact googleAggFold_pos [] (by simp) e he
  · intro shop l rows r h
    exact googleFold_mem (googleAggFold_pos [] (by simp)) (l, 0) r h
  · intro shop l m
    simpa [googleStoreAll] using @googleFold_total shop m (l, 0)
  · intro l shop dt sp d h
    simp [syncFacebookAdCostsStore, h]
  · intro l shop dt sp d r h
    unfold syncFacebookAdCostsStore at h
    by_cases hsp : 0 < sp
    · simp only [hsp, if_pos, List.mem_append, List.mem_singleton] at h
      rcases h with h | h
      · exact Or.inl h
      · exact Or.inr (by simp [h, hsp])
    · simp only [hsp, if_neg, not_false_iff] at h
      exact Or.inl h

/-- Claim C6 witness: the theorem applied at concrete inputs — a zero-spend
insight leaves the state untouched, a two-insight run with spends 5 and 0
totals exactly 5, and a zero range total stores nothing. -/
theorem claim_C6_witness :
    fbSyncStep "s.myshopify.com" ([], 0) ⟨0, 0⟩ = ([], 0)
    ∧ (fbSyncDays "s.myshopify.com" [] [⟨5, 0⟩, ⟨0, 1⟩]).2 = 5
    ∧ syncFacebookAdCostsStore [] "s.myshopify.com" 0 0 "d" = [] := by
  refine ⟨claim_C6_zero_spend_filtering.1 "s.myshopify.com" ([], 0) ⟨0, 0⟩ (by norm_num),
    ?_,
    claim_C6_zero_spend_filtering.2.2.2.2.2.2.1 [] "s.myshopify.com" 0 0 "d" (by norm_num)⟩
  rw [claim_C6_zero_spend_filtering.2.2.1 "s.myshopify.com" [] [⟨5, 0⟩, ⟨0, 1⟩]]
  norm_num [List.filter]
